import Mathlib

/-!
Verification development for the job-portal backend stubs.

The repository contains a mongoose `UserSchema` (fields `User`, `email`,
`passwordHash`, `role` with enum and default, nested `profile`), a pre-save
password-hashing hook, a `comparePassword` helper, a `fullname` virtual and a
`dbStart` database bootstrap.  The session service (signup / login / refresh /
logout) exists only in the roadmap and the specification, so it is modelled
from the spec where a claim needs it.

External library `bcrypt` is modelled by its contract: `hash` embeds the cost
and a per-call salt in its output string so that `compare` can re-derive the
digest from the stored value alone, and `compare` resolves to `false` (it does
not throw) when the stored value is not a well-formed hash.  The salt and the
digest are concrete executable stand-ins for the random salt and the one-way
digest of real bcrypt; the format `dollar 2b dollar 10 dollar <salt> dollar
<digest>` mirrors the modular-crypt layout of bcrypt output.
-/

/-- Digest stand-in for the bcrypt one-way function: mixes the salt into every
character.  Only the round-trip property matters to the code under
verification, not one-wayness. -/
def digestChar (salt : Nat) (c : Char) : Char :=
  Char.ofNat (((c.toNat + salt) % 94) + 33)

/-- Digest of a plaintext under a salt, as the character list that follows the
final separator of the hash string. -/
def bcryptDigest (salt : Nat) (p : String) : List Char :=
  p.data.map (digestChar salt)

/-- Model of `bcrypt.hash(p, 10)`: the output embeds the cost (the code always
passes 10), the salt field and the digest, separated as in the modular-crypt
format. -/
def bcryptHash (p : String) (salt : Nat) : String :=
  String.mk ('$' :: '2' :: 'b' :: '$' :: '1' :: '0' :: '$' ::
    (List.replicate salt 's' ++ '$' :: bcryptDigest salt p))

/-- Parse a stored value as a bcrypt hash: cost prefix, salt field, digest.
Returns `none` on any string that is not of the produced shape. -/
def parseBcrypt (h : String) : Option (Nat × List Char) :=
  match h.data with
  | '$' :: '2' :: 'b' :: '$' :: '1' :: '0' :: '$' :: rest =>
    match rest.dropWhile (fun c => c ≠ '$') with
    | '$' :: digest => some ((rest.takeWhile (fun c => c ≠ '$')).length, digest)
    | _ => none
  | _ => none

/-- Model of `bcrypt.compare(p, stored)`: extract the salt from the stored
value, recompute the digest, compare.  On a malformed stored value it resolves
to `false` rather than throwing, per the library contract. -/
def bcryptCompare (p stored : String) : Bool :=
  match parseBcrypt stored with
  | none => false
  | some (salt, digest) => bcryptDigest salt p == digest

/-- Nested `profile` sub-document of the user schema: `firstName`, `lastName`,
`phone`, all optional. -/
structure Profile where
  firstName : Option String
  lastName : Option String
  phone : Option String
deriving Repr, DecidableEq

/-- Document of the mongoose `UserSchema`.  The username-like field is spelled
`User` in the schema, as in the source. -/
structure UserDoc where
  User : String
  email : String
  passwordHash : String
  role : String
  profile : Profile
deriving Repr, DecidableEq

/-- Enum of the schema's `role` field, as declared in the source. -/
def roleEnum : List String := ["user", "admin", "moderator"]

/-- Validator of the `role` field: membership in the declared enum. -/
def roleValid (r : String) : Bool := roleEnum.contains r

/-- Declared default of the `role` field. -/
def roleDefault : String := "user"

/-- Top-level string paths declared by the schema, as a mongoose document
resolves `this.<field>`; an undeclared path yields `none` (JS `undefined`).
`firstName` and `lastName` are only declared inside `profile`, so they are
undefined at top level. -/
def getTop (u : UserDoc) (field : String) : Option String :=
  if field == "User" then some u.User
  else if field == "email" then some u.email
  else if field == "passwordHash" then some u.passwordHash
  else if field == "role" then some u.role
  else none

/-- JS template-string rendering of a possibly-undefined value. -/
def jsStringOf : Option String → String
  | none => "undefined"
  | some s => s

/-- The `fullname` virtual as written in the source: it interpolates
`this.firstName` and `this.lastName`, which are top-level paths. -/
def fullname (u : UserDoc) : String :=
  jsStringOf (getTop u "firstName") ++ " " ++ jsStringOf (getTop u "lastName")

/-- Full-name derivation as the spec words it: read from the nested profile
sub-record.  Stated for comparison with `fullname`. -/
def specFullname (u : UserDoc) : String :=
  jsStringOf u.profile.firstName ++ " " ++ jsStringOf u.profile.lastName

/-- The pre-save hook: when the `passwordHash` path is modified, replace it by
its bcrypt hash (cost 10, fresh salt `salt`); otherwise leave the document
untouched.  The hook has no error path and no other effect. -/
def preSave (u : UserDoc) (isModifiedPasswordHash : Bool) (salt : Nat) : UserDoc :=
  if isModifiedPasswordHash then
    { u with passwordHash := bcryptHash u.passwordHash salt }
  else u

/-- The `comparePassword` helper: `bcrypt.compare` of the candidate against the
stored `passwordHash`. -/
def comparePassword (u : UserDoc) (password : String) : Bool :=
  bcryptCompare password u.passwordHash

/-- Outcome of the `dbStart` bootstrap. -/
inductive DbStartOutcome where
  | missingUri
  | connected
  | connectFailed (msg : String)
deriving Repr, DecidableEq

/-- The `dbStart` function of `src/config/database.js`.  The environment
variable is an optional string (`none` models an undefined `MONGODB_URI`, and
the JS falsy test also treats the empty string as missing); `connect` models
`mongoose.connect`, which may throw (`Except.error`).  The `try`/`catch`
converts a connect error into a logged normal return, so the result is an
`Except` that is `ok` exactly when no exception escapes to the caller. -/
def dbStart (uri : Option String) (connect : String → Except String Unit) :
    Except String DbStartOutcome :=
  match uri with
  | none => .ok .missingUri
  | some u =>
    if u == "" then .ok .missingUri
    else
      match connect u with
      | .ok _ => .ok .connected
      | .error e => .ok (.connectFailed e)

/-- Error kinds of the session service, from the spec's error-handling design. -/
inductive SessionError where
  | DuplicateUserError
  | WeakPasswordError
  | InvalidCredentialsError
  | TokenInvalidError
  | TokenExpiredError
  | DuplicateTokenError
  | InvalidInputError
deriving Repr, DecidableEq

/-- Failure surfaced to a caller: an error kind together with the externally
observable message. -/
structure SessionFailure where
  kind : SessionError
  message : String
deriving Repr, DecidableEq

/-- The one failure value of credential checks: the spec collapses missing user
and wrong password into the same kind and the same message. -/
def invalidCredentialsFailure : SessionFailure :=
  ⟨.InvalidCredentialsError, "Invalid credentials"⟩

/-- Modelled from the spec: the Session Service state, absent from src.  It
holds the credential store, the refresh-token ledger and a freshness counter.
Refresh tokens are modelled as naturals drawn from the counter, making the
spec's token-uniqueness assumption (random or signed opaque strings, unique
across all records) explicit. -/
structure SessionState where
  users : List UserDoc
  ledger : List Nat
  nextToken : Nat
deriving Repr, DecidableEq

/-- Modelled from the spec: issuing a refresh token mints a fresh value and
stores it in the ledger. -/
def issueRefreshToken (s : SessionState) : Nat × SessionState :=
  (s.nextToken, { s with ledger := s.nextToken :: s.ledger, nextToken := s.nextToken + 1 })

/-- Modelled from the spec: `signup`, absent from src.  Fails with
`DuplicateUserError` when the email or the username already exists, with
`WeakPasswordError` when the password is shorter than 8 (checked before
hashing); on success it creates the user with the hashed password and the
schema's default role, and issues and stores a refresh token. -/
def signup (s : SessionState) (username email password : String) (profile : Profile)
    (salt : Nat) : Except SessionFailure (UserDoc × Nat × SessionState) :=
  if ∃ u ∈ s.users, u.email = email ∨ u.User = username then
    .error ⟨.DuplicateUserError, "User already exists"⟩
  else if password.length < 8 then
    .error ⟨.WeakPasswordError, "Password too weak"⟩
  else
    let newUser : UserDoc := ⟨username, email, bcryptHash password salt, roleDefault, profile⟩
    let res := issueRefreshToken { s with users := newUser :: s.users }
    .ok (newUser, res.1, res.2)

/-- Modelled from the spec: `login`, absent from src.  Finds the user by email
and verifies the password; both the missing-user branch and the wrong-password
branch fail with the identical `invalidCredentialsFailure`; on success it
issues and stores a new refresh token. -/
def login (s : SessionState) (email password : String) :
    Except SessionFailure (Nat × SessionState) :=
  match s.users.find? (fun u => u.email == email) with
  | none => .error invalidCredentialsFailure
  | some u =>
    if bcryptCompare password u.passwordHash then .ok (issueRefreshToken s)
    else .error invalidCredentialsFailure

/-- Modelled from the spec: `refresh`, absent from src.  Looks the token up in
the ledger; when absent it fails with `invalidCredentialsFailure`; on success
it revokes the presented token and issues and stores a new one (rotation). -/
def refresh (s : SessionState) (t : Nat) :
    Except SessionFailure (Nat × SessionState) :=
  if t ∈ s.ledger then .ok (issueRefreshToken { s with ledger := s.ledger.erase t })
  else .error invalidCredentialsFailure

/-- Modelled from the spec: `logout`, absent from src: idempotent revocation of
the presented token. -/
def logout (s : SessionState) (t : Nat) : SessionState :=
  { s with ledger := s.ledger.erase t }

/-- Session-service operations, for reasoning over arbitrary call sequences. -/
inductive Op where
  | signup (username email password : String) (profile : Profile) (salt : Nat)
  | login (email password : String)
  | refresh (t : Nat)
  | logout (t : Nat)
deriving Repr

/-- State after one operation; a failed operation leaves the state unchanged. -/
def applyOp (s : SessionState) : Op → SessionState
  | .signup un em pw pr salt =>
    match signup s un em pw pr salt with
    | .ok r => r.2.2
    | .error _ => s
  | .login em pw =>
    match login s em pw with
    | .ok r => r.2
    | .error _ => s
  | .refresh t =>
    match refresh s t with
    | .ok r => r.2
    | .error _ => s
  | .logout t => logout s t

/-- State after a sequence of operations. -/
def applyOps (s : SessionState) (ops : List Op) : SessionState :=
  ops.foldl applyOp s

/-- Empty initial state: no users, no tokens. -/
def initialState : SessionState := ⟨[], [], 0⟩

/-- Credential-store uniqueness invariant: no two records share an email and no
two records share a username. -/
def UniqueUsers (s : SessionState) : Prop :=
  (s.users.map (fun u => u.email)).Nodup ∧ (s.users.map (fun u => u.User)).Nodup

/-- Ledger well-formedness: every stored token was minted by the counter, and
the ledger has no duplicate entries. -/
def LedgerWF (s : SessionState) : Prop :=
  (∀ t ∈ s.ledger, t < s.nextToken) ∧ s.ledger.Nodup

instance (s : SessionState) : Decidable (UniqueUsers s) := by
  unfold UniqueUsers; infer_instance

instance (s : SessionState) : Decidable (LedgerWF s) := by
  unfold LedgerWF; infer_instance

/-- Revoked-token predicate: the token is gone from the ledger and too small to
ever be minted again. -/
def TokenDead (t : Nat) (s : SessionState) : Prop :=
  t ∉ s.ledger ∧ t < s.nextToken ∧ LedgerWF s

/-- Concrete document whose profile carries a first and last name, for the
fullname evaluation. -/
def adaUser : UserDoc :=
  ⟨"ada", "ada@x.com", "irrelevant", "user", ⟨some "Ada", some "Lovelace", none⟩⟩

/-- Concrete document with an empty password, for the empty-input hashing
evaluation. -/
def emptyPwUser : UserDoc :=
  ⟨"alice", "alice@x.com", "", "user", ⟨none, none, none⟩⟩

/-- Concrete document whose stored password value is not a well-formed hash. -/
def malformedUser : UserDoc :=
  ⟨"mallory", "mallory@x.com", "not-a-bcrypt-hash", "user", ⟨none, none, none⟩⟩

/-- Concrete store containing one user with a hashed password, for the login
indistinguishability evaluation. -/
def bobState : SessionState :=
  ⟨[⟨"bob", "bob@x.com", bcryptHash "Passw0rd!" 4, "user", ⟨none, none, none⟩⟩], [], 5⟩

/-- Concrete store containing the user `alice`, for the duplicate-signup
evaluation. -/
def dupState : SessionState :=
  ⟨[⟨"alice", "alice@x.com", "stored", "user", ⟨none, none, none⟩⟩], [], 0⟩

/-- Concrete state holding one live refresh token, for the rotation
evaluation. -/
def ledgerState : SessionState := ⟨[], [0], 1⟩

theorem dropWhile_salt_field (n : Nat) (l : List Char) :
    (List.replicate n 's' ++ '$' :: l).dropWhile (fun c => c ≠ '$') = '$' :: l := by
  induction n with
  | zero => simp [List.dropWhile]
  | succ k ih => simp [List.replicate, List.dropWhile, ih]

theorem takeWhile_salt_field (n : Nat) (l : List Char) :
    (List.replicate n 's' ++ '$' :: l).takeWhile (fun c => c ≠ '$') = List.replicate n 's' := by
  induction n with
  | zero => simp [List.takeWhile]
  | succ k ih => simp [List.replicate, List.takeWhile, ih]

theorem parseBcrypt_bcryptHash (p : String) (salt : Nat) :
    parseBcrypt (bcryptHash p salt) = some (salt, bcryptDigest salt p) := by
  simp [parseBcrypt, bcryptHash, dropWhile_salt_field, takeWhile_salt_field]

theorem bcryptCompare_bcryptHash (p : String) (salt : Nat) :
    bcryptCompare p (bcryptHash p salt) = true := by
  simp [bcryptCompare, parseBcrypt_bcryptHash]

theorem signup_ok_inv {s : SessionState} {un em pw : String} {pr : Profile} {salt : Nat}
    {u : UserDoc} {rt : Nat} {s₂ : SessionState}
    (h : signup s un em pw pr salt = .ok (u, rt, s₂)) :
    u = ⟨un, em, bcryptHash pw salt, roleDefault, pr⟩ ∧ rt = s.nextToken ∧
    s₂ = ⟨u :: s.users, s.nextToken :: s.ledger, s.nextToken + 1⟩ ∧
    ¬ ∃ v ∈ s.users, v.email = em ∨ v.User = un := by
  unfold signup at h
  split at h
  · simp at h
  next hdup =>
    split at h
    · simp at h
    · simp only [issueRefreshToken, Except.ok.injEq, Prod.mk.injEq] at h
      obtain ⟨hu, hrt, hs⟩ := h
      subst hu
      subst hrt
      subst hs
      exact ⟨rfl, rfl, rfl, hdup⟩

theorem login_ok_inv {s : SessionState} {em pw : String} {rt : Nat} {s₂ : SessionState}
    (h : login s em pw = .ok (rt, s₂)) :
    rt = s.nextToken ∧ s₂ = ⟨s.users, s.nextToken :: s.ledger, s.nextToken + 1⟩ := by
  unfold login at h
  split at h
  · simp at h
  · split at h
    · simp only [issueRefreshToken, Except.ok.injEq, Prod.mk.injEq] at h
      obtain ⟨hrt, hs⟩ := h
      subst hrt
      subst hs
      exact ⟨rfl, rfl⟩
    · simp at h

theorem refresh_ok_inv {s : SessionState} {t rt : Nat} {s₂ : SessionState}
    (h : refresh s t = .ok (rt, s₂)) :
    t ∈ s.ledger ∧ rt = s.nextToken ∧
    s₂ = ⟨s.users, s.nextToken :: s.ledger.erase t, s.nextToken + 1⟩ := by
  unfold refresh at h
  split at h
  next hmem =>
    simp only [issueRefreshToken, Except.ok.injEq, Prod.mk.injEq] at h
    obtain ⟨hrt, hs⟩ := h
    subst hrt
    subst hs
    exact ⟨hmem, rfl, rfl⟩
  next hmem => simp at h

theorem uniqueUsers_applyOp (s : SessionState) (op : Op) (h : UniqueUsers s) :
    UniqueUsers (applyOp s op) := by
  cases op with
  | signup un em pw pr salt =>
    simp only [applyOp]
    cases hs : signup s un em pw pr salt with
    | error e => exact h
    | ok r =>
      obtain ⟨u, rt, s₂⟩ := r
      obtain ⟨hu, hrt, hs₂, hdup⟩ := signup_ok_inv hs
      subst hs₂
      subst hu
      refine ⟨?_, ?_⟩
      · rw [List.map_cons, List.nodup_cons]
        refine ⟨?_, h.1⟩
        intro hmem
        obtain ⟨v, hv, hveq⟩ := List.mem_map.mp hmem
        exact hdup ⟨v, hv, Or.inl hveq⟩
      · rw [List.map_cons, List.nodup_cons]
        refine ⟨?_, h.2⟩
        intro hmem
        obtain ⟨v, hv, hveq⟩ := List.mem_map.mp hmem
        exact hdup ⟨v, hv, Or.inr hveq⟩
  | login em pw =>
    simp only [applyOp]
    cases hl : login s em pw with
    | error e => exact h
    | ok r =>
      obtain ⟨rt, s₂⟩ := r
      obtain ⟨hrt, hs₂⟩ := login_ok_inv hl
      subst hs₂
      exact h
  | refresh t =>
    simp only [applyOp]
    cases hr : refresh s t with
    | error e => exact h
    | ok r =>
      obtain ⟨rt, s₂⟩ := r
      obtain ⟨hmem, hrt, hs₂⟩ := refresh_ok_inv hr
      subst hs₂
      exact h
  | logout t => simp only [applyOp]; exact h

theorem uniqueUsers_applyOps (ops : List Op) (s : SessionState) (h : UniqueUsers s) :
    UniqueUsers (applyOps s ops) := by
  induction ops generalizing s with
  | nil => exact h
  | cons op rest ih => exact ih (applyOp s op) (uniqueUsers_applyOp s op h)

theorem tokenDead_push (t : Nat) (us : List UserDoc) (s : SessionState) (L : List Nat)
    (hsub : L ⊆ s.ledger) (hnd : L.Nodup) (h : TokenDead t s) :
    TokenDead t ⟨us, s.nextToken :: L, s.nextToken + 1⟩ := by
  obtain ⟨hmem, hlt, hwf⟩ := h
  refine ⟨?_, Nat.lt_succ_of_lt hlt, ?_, ?_⟩
  · intro hm
    rcases List.mem_cons.mp hm with h1 | h2
    · exact Nat.ne_of_lt hlt h1
    · exact hmem (hsub h2)
  · intro x hx
    rcases List.mem_cons.mp hx with h1 | h2
    · exact h1 ▸ Nat.lt_succ_self _
    · exact Nat.lt_succ_of_lt (hwf.1 x (hsub h2))
  · rw [List.nodup_cons]
    refine ⟨?_, hnd⟩
    intro hm
    exact Nat.lt_irrefl _ (hwf.1 _ (hsub hm))

theorem tokenDead_applyOp (t : Nat) (s : SessionState) (op : Op) (h : TokenDead t s) :
    TokenDead t (applyOp s op) := by
  cases op with
  | signup un em pw pr salt =>
    simp only [applyOp]
    cases hs : signup s un em pw pr salt with
    | error e => exact h
    | ok r =>
      obtain ⟨u, rt, s₂⟩ := r
      obtain ⟨hu, hrt, hs₂, hdup⟩ := signup_ok_inv hs
      subst hs₂
      exact tokenDead_push t _ s s.ledger (List.Subset.refl _) h.2.2.2 h
  | login em pw =>
    simp only [applyOp]
    cases hl : login s em pw with
    | error e => exact h
    | ok r =>
      obtain ⟨rt, s₂⟩ := r
      obtain ⟨hrt, hs₂⟩ := login_ok_inv hl
      subst hs₂
      exact tokenDead_push t _ s s.ledger (List.Subset.refl _) h.2.2.2 h
  | refresh t₀ =>
    simp only [applyOp]
    cases hr : refresh s t₀ with
    | error e => exact h
    | ok r =>
      obtain ⟨rt, s₂⟩ := r
      obtain ⟨hmem, hrt, hs₂⟩ := refresh_ok_inv hr
      subst hs₂
      exact tokenDead_push t _ s (s.ledger.erase t₀) (List.erase_subset t₀ s.ledger) (h.2.2.2.erase t₀) h
  | logout t₀ =>
    simp only [applyOp]
    obtain ⟨hmem, hlt, hwf⟩ := h
    refine ⟨?_, hlt, ?_, hwf.2.erase t₀⟩
    · intro hm
      exact hmem (List.mem_of_mem_erase hm)
    · intro x hx
      exact hwf.1 x (List.mem_of_mem_erase hx)

theorem tokenDead_applyOps (t : Nat) (ops : List Op) (s : SessionState) (h : TokenDead t s) :
    TokenDead t (applyOps s ops) := by
  induction ops generalizing s with
  | nil => exact h
  | cons op rest ih => exact ih (applyOp s op) (tokenDead_applyOp t s op h)

/-- C1: a plaintext stored in `passwordHash` and hashed by the pre-save hook is
accepted by `comparePassword` afterwards: verifying any plaintext against the
stored value produced by hashing it returns true, for every document and every
salt. -/
theorem comparePassword_verifies_hashed (u : UserDoc) (salt : Nat) :
    comparePassword (preSave u true salt) u.passwordHash = true := by
  simp [comparePassword, preSave, bcryptCompare_bcryptHash]

/-- C2: evaluation of the schema's role validator.  The declared enum is
`user` / `admin` / `moderator` with default `user`; the values `candidate` and
`recruiter` demanded by the spec (and required by the roadmap's recruiter-only
and candidate-only routes) are rejected, while `moderator` — absent from the
spec — is accepted. -/
theorem role_enum_values :
    roleValid "candidate" = false ∧ roleValid "recruiter" = false ∧
    roleValid "user" = true ∧ roleValid "admin" = true ∧
    roleValid "moderator" = true ∧ roleDefault = "user" := by
  decide

/-- C3: from the empty store, every state reachable by session operations keeps
emails and usernames unique, and `signup` on an already-present email or
username fails with `DuplicateUserError`. -/
theorem signup_preserves_uniqueness (ops : List Op) (s : SessionState) (un em pw : String)
    (pr : Profile) (salt : Nat)
    (hdup : ∃ u ∈ s.users, u.email = em ∨ u.User = un) :
    UniqueUsers (applyOps initialState ops) ∧
    signup s un em pw pr salt = .error ⟨.DuplicateUserError, "User already exists"⟩ := by
  refine ⟨uniqueUsers_applyOps ops initialState ⟨List.nodup_nil, List.nodup_nil⟩, ?_⟩
  unfold signup
  rw [if_pos hdup]

/-- Witness for C3 at a concrete operation sequence and a concrete duplicate
email. -/
theorem signup_preserves_uniqueness_witness :
    UniqueUsers (applyOps initialState
      [Op.signup "alice" "alice@x.com" "Passw0rd!" ⟨none, none, none⟩ 2]) ∧
    signup dupState "bob" "alice@x.com" "Passw0rd!" ⟨none, none, none⟩ 2 =
      .error ⟨.DuplicateUserError, "User already exists"⟩ :=
  signup_preserves_uniqueness
    [Op.signup "alice" "alice@x.com" "Passw0rd!" ⟨none, none, none⟩ 2]
    dupState "bob" "alice@x.com" "Passw0rd!" ⟨none, none, none⟩ 2 (by decide)

/-- C4: the `fullname` virtual reads the undeclared top-level `firstName` and
`lastName` paths, not the nested profile fields: on a document whose profile
holds the names, it renders two JS `undefined` values instead of the profile
names the spec prescribes. -/
theorem fullname_reads_top_level :
    fullname adaUser = "undefined undefined" ∧
    specFullname adaUser = "Ada Lovelace" ∧
    fullname adaUser ≠ specFullname adaUser := by
  refine ⟨rfl, rfl, by decide⟩

/-- C5 counterexample: hashing the empty-string password does not fail — the
pre-save hook has no error path and maps the empty input to a well-formed
hash. -/
theorem preSave_empty_counterexample :
    (preSave emptyPwUser true 3).passwordHash = bcryptHash "" 3 ∧
    (parseBcrypt (preSave emptyPwUser true 3).passwordHash).isSome = true := by
  exact ⟨rfl, by decide⟩

/-- C5 amended: on a document whose `passwordHash` holds the empty string, the
pre-save hook performs no input validation and produces a well-formed hash like
any other input; no `InvalidInputError` exists in the code. -/
theorem preSave_empty_hashes (u : UserDoc) (salt : Nat) (h : u.passwordHash = "") :
    (preSave u true salt).passwordHash = bcryptHash "" salt ∧
    (parseBcrypt (preSave u true salt).passwordHash).isSome = true := by
  constructor
  · simp [preSave, h]
  · simp [preSave, parseBcrypt_bcryptHash]

/-- Witness for the amended C5 at a concrete document and salt. -/
theorem preSave_empty_hashes_witness :
    emptyPwUser.passwordHash = "" ∧
    ((preSave emptyPwUser true 3).passwordHash = bcryptHash "" 3 ∧
      (parseBcrypt (preSave emptyPwUser true 3).passwordHash).isSome = true) :=
  ⟨rfl, preSave_empty_hashes emptyPwUser 3 rfl⟩

/-- C6: for every candidate plaintext and every stored value that is not a
well-formed hash, `comparePassword` returns `false`; the function is total, so
no exception reaches the verify interface. -/
theorem comparePassword_malformed_false (u : UserDoc) (p : String)
    (h : parseBcrypt u.passwordHash = none) :
    comparePassword u p = false := by
  simp [comparePassword, bcryptCompare, h]

/-- Witness for C6 at a concrete malformed stored value. -/
theorem comparePassword_malformed_false_witness :
    parseBcrypt malformedUser.passwordHash = none ∧
    comparePassword malformedUser "anything" = false :=
  ⟨by decide, comparePassword_malformed_false malformedUser "anything" (by decide)⟩

/-- C7: the pre-save hook is the identity on a save where `passwordHash` is not
modified, and on a modified save it changes nothing but `passwordHash`, which
it re-hashes. -/
theorem preSave_frame (u : UserDoc) (salt : Nat) :
    preSave u false salt = u ∧
    preSave u true salt = { u with passwordHash := bcryptHash u.passwordHash salt } :=
  ⟨rfl, rfl⟩

/-- C8: a login for an absent email and a login with a wrong password for a
present email fail with the identical error kind and the identical externally
observable message, so the two failures are indistinguishable to the caller. -/
theorem login_indistinguishable (s s₁ : SessionState) (em pw em₁ pw₁ : String) (u : UserDoc)
    (h1 : s.users.find? (fun v => v.email == em) = none)
    (h2 : s₁.users.find? (fun v => v.email == em₁) = some u)
    (h3 : bcryptCompare pw₁ u.passwordHash = false) :
    login s em pw = .error invalidCredentialsFailure ∧
    login s₁ em₁ pw₁ = .error invalidCredentialsFailure ∧
    login s em pw = login s₁ em₁ pw₁ := by
  have e1 : login s em pw = .error invalidCredentialsFailure := by
    simp [login, h1]
  have e2 : login s₁ em₁ pw₁ = .error invalidCredentialsFailure := by
    simp [login, h2, h3]
  exact ⟨e1, e2, e1.trans e2.symm⟩

/-- Witness for C8 at a concrete empty store and a concrete store holding one
user with a wrong candidate password. -/
theorem login_indistinguishable_witness :
    login initialState "ghost@x.com" "whatever" = .error invalidCredentialsFailure ∧
    login bobState "bob@x.com" "wrong-password" = .error invalidCredentialsFailure ∧
    login initialState "ghost@x.com" "whatever" = login bobState "bob@x.com" "wrong-password" :=
  login_indistinguishable initialState bobState "ghost@x.com" "whatever" "bob@x.com"
    "wrong-password" ⟨"bob", "bob@x.com", bcryptHash "Passw0rd!" 4, "user", ⟨none, none, none⟩⟩
    (by decide) (by decide) (by decide)

/-- C9: once a refresh with token `t` has succeeded, every later refresh
presenting the same `t` — after any sequence of further session operations —
fails with `InvalidCredentialsError`: rotation never accepts a refresh token
twice. -/
theorem refresh_rotation_single_use (s : SessionState) (t rt : Nat) (s₁ : SessionState)
    (ops : List Op) (hwf : LedgerWF s) (hok : refresh s t = .ok (rt, s₁)) :
    refresh (applyOps s₁ ops) t = .error invalidCredentialsFailure := by
  obtain ⟨hmem, hrt, hs₁⟩ := refresh_ok_inv hok
  have hlt : t < s.nextToken := hwf.1 t hmem
  have hdead : TokenDead t s₁ := by
    subst hs₁
    refine ⟨?_, Nat.lt_succ_of_lt hlt, ?_, ?_⟩
    · intro hm
      rcases List.mem_cons.mp hm with h1 | h2
      · exact Nat.ne_of_lt hlt h1
      · exact ((hwf.2.mem_erase_iff).mp h2).1 rfl
    · intro x hx
      rcases List.mem_cons.mp hx with h1 | h2
      · exact h1 ▸ Nat.lt_succ_self _
      · exact Nat.lt_succ_of_lt (hwf.1 x (List.erase_subset t s.ledger h2))
    · rw [List.nodup_cons]
      refine ⟨?_, hwf.2.erase t⟩
      intro hm
      exact Nat.lt_irrefl _ (hwf.1 _ (List.erase_subset t s.ledger hm))
  have hfinal := tokenDead_applyOps t ops s₁ hdead
  unfold refresh
  rw [if_neg hfinal.1]

/-- Witness for C9 at a concrete state, a concrete successful refresh and a
concrete later operation sequence. -/
theorem refresh_rotation_single_use_witness :
    refresh (applyOps ⟨[], [1], 2⟩ [Op.login "eve@x.com" "whatever", Op.logout 5]) 0 =
      .error invalidCredentialsFailure :=
  refresh_rotation_single_use ledgerState 0 1 ⟨[], [1], 2⟩
    [Op.login "eve@x.com" "whatever", Op.logout 5] (by decide) rfl

/-- C10: `dbStart` returns normally on every input — for an undefined (or
falsy) `MONGODB_URI` it returns without connecting, and every connect error is
caught — so no exception escapes to the caller. -/
theorem dbStart_never_throws (uri : Option String) (connect : String → Except String Unit) :
    (∃ r, dbStart uri connect = .ok r) ∧ dbStart none connect = .ok .missingUri := by
  refine ⟨?_, rfl⟩
  cases uri with
  | none => exact ⟨.missingUri, rfl⟩
  | some u =>
    by_cases hu : (u == "") = true
    · exact ⟨.missingUri, by simp [dbStart, hu]⟩
    · cases hc : connect u with
      | ok v => exact ⟨.connected, by simp [dbStart, hu, hc]⟩
      | error e => exact ⟨.connectFailed e, by simp [dbStart, hu, hc]⟩
